import Mathlib

/-!
Verification of the jsonmon check scheduler and status cache (main.go).

The Go source is shallowly embedded: the external effects (process execution,
HTTP transport, the regexp library, wall-clock time) are passed in as explicit
parameters, and the control flow of each source function is translated
directly.  Machine integers from the Go source (`int` fields of the `Check`
struct) are modelled as `Int`; loop counters are `Nat`.
-/

namespace Jsonmon

/-- The `Check` struct of main.go (lines 51-64).  Field names follow the Go
struct; `Failed` and `Since` are the mutable runtime state, the rest is the
configuration loaded from YAML. -/
structure Check where
  Name : String
  Web : String
  Shell : String
  Match : String
  Return : Int
  Notify : String
  Alert : String
  Tries : Int
  Repeat : Int
  Sleep : Int
  Failed : Bool
  Since : String
deriving DecidableEq, Repr

/-- Result of the `regexp.Compile` call, which lives in Go's standard library:
either a compilation error with its message, or a compiled matcher. -/
inductive RegexResult where
  | compileError (msg : String)
  | compiled (matcher : String → Bool)

/-- The regular-expression step shared by the shell probe (main.go 231-237)
and `fetch` (main.go 362-374): when the pattern is empty nothing is checked;
a compilation error becomes the probe error; a compiled regexp that does not
match produces the "Expected/Got" error. -/
def matchOutcome (compile : String → RegexResult) (pat : String) (s : String) :
    Option String :=
  if pat = "" then none
  else
    match compile pat with
    | RegexResult.compileError m => some m
    | RegexResult.compiled f =>
        if f s then none
        else some ("Expected:\n" ++ pat ++ "\n\nGot:\n" ++ s)

/-- Observable outcome of one retry loop (one polling cycle's probe phase):
the `out` buffer, the final `err` value, how many probe attempts ran and how
many inter-attempt sleeps were observed. -/
structure CycleOutcome where
  out : String
  err : Option String
  attempts : Nat
  sleeps : Nat
deriving DecidableEq, Repr

/-- The retry loop of `web` (main.go 288-297): `i` is the loop counter, `s`
the sleeps observed so far and the last argument the remaining iterations
of `for i := 0; i < check.Tries`.  `att k` is the result of the `fetch` call
on attempt `k`. -/
def webAux (att : Nat → Option String) : Nat → Nat → Nat → CycleOutcome
  | i, s, 0 => ⟨"", none, i, s⟩
  | i, s, rem + 1 =>
    match att i with
    | none => ⟨"", none, i + 1, s⟩
    | some msg =>
        if rem = 0 then ⟨"", some msg, i + 1, s⟩
        else webAux att (i + 1) (s + 1) rem

/-- One `web` polling cycle's probe phase (main.go 288-297). -/
def webLoop (att : Nat → Option String) (tries : Nat) : CycleOutcome :=
  webAux att 0 0 tries

/-- The retry loop of `shell` (main.go 228-244).  `ex k` is the combined
output and error of the `exec.Command(...).CombinedOutput()` call on attempt
`k`; on a zero exit status the loop breaks out after evaluating the `match`
regular expression (`mres`) against the captured output. -/
def shellAux (ex : Nat → String × Option String) (mres : String → Option String) :
    Nat → Nat → Nat → CycleOutcome
  | i, s, 0 => ⟨"", none, i, s⟩
  | i, s, rem + 1 =>
    match ex i with
    | (out, none) => ⟨out, mres out, i + 1, s⟩
    | (out, some msg) =>
        if rem = 0 then ⟨out, some msg, i + 1, s⟩
        else shellAux ex mres (i + 1) (s + 1) rem

/-- One `shell` polling cycle's probe phase (main.go 228-244). -/
def shellLoop (ex : Nat → String × Option String)
    (mres : String → Option String) (tries : Nat) : CycleOutcome :=
  shellAux ex mres 0 0 tries

/-- The change-token constructor `etag` (main.go 80-82): a weak validator
built from a timestamp.  Timestamps are opaque strings here; the source
formats the same `time.Now()` instant into both the token and `Since`. -/
def etag (ts : String) : String := "W/\x22" ++ ts ++ "\x22"

/-- `strconv.FormatBool`, used for the alert command's first argument. -/
def formatBool (b : Bool) : String := if b then "true" else "false"

/-- The positional argument list built by `alert` (main.go 417-429): the new
failed state as boolean text, then the display name, then — only when a
message is present — the diagnostic. -/
def alertArgs (failed : Bool) (name : String) (msg : Option String) :
    List String :=
  match msg with
  | some m => [formatBool failed, name, m]
  | none => [formatBool failed, name]

/-- The error handling of `alert` (main.go 426-428): a non-zero exit or spawn
failure of the alert command is logged to stderr; a clean run logs nothing. -/
def alertLogs (cmd : String) (out : String) (execErr : Option String) :
    List String :=
  match execErr with
  | some e => ["<3>" ++ cmd ++ " failed\n" ++ out ++ e]
  | none => []

/-- The whole `alert` call (main.go 417-429): it reads the check (for
`check.Alert`) and returns it untouched together with any log lines — the
function never writes the check's state. -/
def alertRun (c : Check) (out : String) (execErr : Option String) :
    Check × List String :=
  (c, alertLogs c.Alert out execErr)

/-- An edge-triggered side effect fired by the notification dispatch of
`shell`/`web` (main.go 245-281 and 298-334): the log line, the sendmail
hand-off, or the alert-command invocation. -/
inductive Event where
  | logLine (subject : String) (message : Option String)
  | mail (addr : String) (subject : String) (message : Option String)
  | alertCall (cmd : String) (args : List String)
deriving DecidableEq, Repr

/-- Effect of the result-processing half of one polling cycle: the check
record after the cycle, the global `modified` token, how many times the token
was written, and the notification events fired. -/
structure CycleEffect where
  check : Check
  token : String
  tokenWrites : Nat
  events : List Event
deriving DecidableEq, Repr

/-- The "Process results" half of `shell` (main.go 245-281); `web`
(main.go 298-334) is literally the same code with a different `failMsg`.
`err` is the retry loop's final error, `failMsg` the diagnostic built on an
UP-to-DOWN transition (`string(out) + err.Error()` for shell, `err.Error()`
for web), `now` the `time.Now()` instant, `token` the current global
`modified` value. -/
def processOutcome (c : Check) (name : String) (err : Option String)
    (failMsg : String) (now : String) (token : String) : CycleEffect :=
  match err with
  | none =>
    if c.Failed then
      { check := { c with Failed := false, Since := now }
        token := etag now
        tokenWrites := 1
        events := Event.logLine ("Fixed: " ++ name) none ::
          ((if c.Notify ≠ "" then
              [Event.mail c.Notify ("Fixed: " ++ name) none] else []) ++
           (if c.Alert ≠ "" then
              [Event.alertCall c.Alert (alertArgs false name none)] else [])) }
    else ⟨c, token, 0, []⟩
  | some _ =>
    if c.Failed then ⟨c, token, 0, []⟩
    else
      { check := { c with Failed := true, Since := now }
        token := etag now
        tokenWrites := 1
        events := Event.logLine ("Failed: " ++ name) (some failMsg) ::
          ((if c.Notify ≠ "" then
              [Event.mail c.Notify ("Failed: " ++ name) (some failMsg)] else []) ++
           (if c.Alert ≠ "" then
              [Event.alertCall c.Alert (alertArgs true name (some failMsg))]
            else [])) }

/-- Cumulative observation of a sequence of polling cycles. -/
structure RunResult where
  check : Check
  token : String
  tokenWrites : Nat
  dispatches : Nat
deriving DecidableEq, Repr

/-- Runs the result-processing step over a list of cycles, each given as
(final probe error, failure diagnostic, timestamp).  `dispatches` counts the
cycles that fired any notification. -/
def runCycles (name : String) :
    Check → String → List (Option String × String × String) → RunResult
  | c, tok, [] => ⟨c, tok, 0, 0⟩
  | c, tok, (err, failMsg, now) :: rest =>
    let eff := processOutcome c name err failMsg now tok
    let r := runCycles name eff.check eff.token rest
    ⟨r.check, r.token, eff.tokenWrites + r.tokenWrites,
      (if eff.events = [] then 0 else 1) + r.dispatches⟩

/-- Effective poll interval (main.go 185-187): unset (0) defaults to 30. -/
def effRepeat (c : Check) : Int := if c.Repeat = 0 then 30 else c.Repeat

/-- Effective attempt count (main.go 188-190): unset (0) defaults to 1. -/
def effTries (c : Check) : Int := if c.Tries = 0 then 1 else c.Tries

/-- Effective expected HTTP status (main.go 201-205, web branch only):
unset (0) defaults to 200. -/
def effReturn (c : Check) : Int := if c.Return = 0 then 200 else c.Return

/-- The defaults `worker` applies before a shell check's loop. -/
def applyShellDefaults (c : Check) : Check :=
  { c with Repeat := effRepeat c, Tries := effTries c }

/-- The defaults `worker` applies before a web check's loop. -/
def applyWebDefaults (c : Check) : Check :=
  { c with Repeat := effRepeat c, Tries := effTries c, Return := effReturn c }

/-- What a spawned worker goroutine does after validation (main.go 166-221):
either it marked the check failed and returned (invalid definition), or it
entered the infinite polling loop for a web or shell check with the given
effective configuration and display name. -/
inductive WorkerAction where
  | disabled (c : Check)
  | pollWeb (c : Check) (name : String)
  | pollShell (c : Check) (name : String)
deriving DecidableEq, Repr

/-- The validation and setup phase of `worker` (main.go 166-221), translated
branch by branch: no target or both targets present disable the check with
`Failed = true`; otherwise defaults are applied and the display name falls
back to the probe target. -/
def workerSpawn (c : Check) : WorkerAction :=
  if c.Shell = "" ∧ c.Web = "" then
    WorkerAction.disabled { c with Failed := true }
  else if c.Shell ≠ "" ∧ c.Web ≠ "" then
    WorkerAction.disabled { c with Failed := true }
  else if c.Web ≠ "" then
    WorkerAction.pollWeb (applyWebDefaults c)
      (if c.Name ≠ "" then c.Name else c.Web)
  else
    WorkerAction.pollShell (applyShellDefaults c)
      (if c.Name ≠ "" then c.Name else c.Shell)

/-- One worker goroutine per configured check (main.go 137-139). -/
def spawnAll (cs : List Check) : List WorkerAction :=
  cs.map workerSpawn

/-- Number of polling cycles a worker executes during a window of `n` loop
iterations: a disabled worker returned before its loop and never polls. -/
def pollCycles : WorkerAction → Nat → Nat
  | WorkerAction.disabled _, _ => 0
  | WorkerAction.pollWeb _ _, n => n
  | WorkerAction.pollShell _ _, n => n

/-- Joint effect of the spawn phase on the check's slot and on the global
`modified` token: the disabled paths (main.go 166-183) write only the
`Failed` flag and never touch `modified`; a valid check's slot and the token
are also untouched at spawn time. -/
def spawnEffect (c : Check) (token : String) : Check × String :=
  match workerSpawn c with
  | WorkerAction.disabled c' => (c', token)
  | _ => (c, token)

/-- Outcome of the HTTP round-trip `client.Do` inside `fetch`, which lives in
Go's standard library: either a network-level error or a response. -/
inductive FetchEnv where
  | netError (msg : String)
  | response (status : Nat) (body : String)

/-- `fetch` (main.go 349-381): a network error is the probe error; a response
with an unexpected status yields the "url returned N" error; otherwise the
optional `match` regular expression is applied to the body. -/
def fetch (compile : String → RegexResult) (env : FetchEnv) (url : String)
    (pat : String) (code : Nat) : Option String :=
  match env with
  | FetchEnv.netError m => some m
  | FetchEnv.response st body =>
    if st ≠ code then some (url ++ " returned " ++ toString st)
    else matchOutcome compile pat body

/-- An outgoing HTTP request as seen by the redirect policy. -/
structure Req where
  url : String
  userAgent : String
deriving DecidableEq, Repr

/-- `redirect` (main.go 338-346): refuse once ten requests are already in the
chain, otherwise re-apply the fixed User-Agent and allow the hop. -/
def redirect (req : Req) (via : List Req) : Option String × Req :=
  if 10 ≤ via.length then (some "stopped after 10 redirects", req)
  else (none, { req with userAgent := "jsonmon" })

/-- Modelled from the spec: the redirect-following loop of the HTTP client is
Go's `net/http`, outside this repository.  Per the spec the client follows
"redirects up to 10 hops (a request that would require an 11th redirect
fails)", so before following each hop it consults the repository's `redirect`
policy with the chain of hops already followed. -/
def followAux : List Req → List Req → Option String
  | _, [] => none
  | via, r :: rest =>
    match redirect r via with
    | (some e, _) => some e
    | (none, r') => followAux (via ++ [r']) rest

/-- Modelled from the spec: following a whole chain of redirect hops,
starting from an empty chain. -/
def followChain (hops : List Req) : Option String :=
  followAux [] hops

/-- One polled shell cycle (main.go 224-282): the retry loop over the shell
command followed by result processing; the UP-to-DOWN diagnostic is
`string(out) + err.Error()`. -/
def shellStep (compile : String → RegexResult)
    (ex : Nat → String × Option String) (c : Check) (name : String)
    (now : String) (token : String) : CycleEffect :=
  let r := shellLoop ex (matchOutcome compile c.Match) c.Tries.toNat
  processOutcome c name r.err (r.out ++ r.err.getD "") now token

/-- One polled web cycle (main.go 285-335): the retry loop over `fetch`
followed by result processing; the UP-to-DOWN diagnostic is `err.Error()`. -/
def webStep (att : Nat → Option String) (c : Check) (name : String)
    (now : String) (token : String) : CycleEffect :=
  let r := webLoop att c.Tries.toNat
  processOutcome c name r.err (r.err.getD "") now token

/-- A hex digit as produced by Go's JSON encoder. -/
def hexDigit (n : Nat) : Char :=
  if n < 10 then Char.ofNat (48 + n) else Char.ofNat (87 + n)

/-- Go's `encoding/json` string escaping for one character (with the default
HTML escaping of angle brackets and ampersands). -/
def escapeChar (ch : Char) : String :=
  if ch = '\x22' then "\\\x22"
  else if ch = '\\' then "\\\\"
  else if ch = '<' then "\\u003c"
  else if ch = '>' then "\\u003e"
  else if ch = '&' then "\\u0026"
  else if ch = '\n' then "\\n"
  else if ch = '\r' then "\\r"
  else if ch = '\t' then "\\t"
  else if ch.toNat < 32 then
    "\\u00" ++ String.singleton (hexDigit (ch.toNat / 16)) ++
      String.singleton (hexDigit (ch.toNat % 16))
  else String.singleton ch

/-- Go's `encoding/json` escaping of a whole string. -/
def jsonEscape (s : String) : String :=
  s.data.foldl (fun acc ch => acc ++ escapeChar ch) ""

/-- A JSON string literal as emitted by `json.Marshal`. -/
def jsonStr (s : String) : String := "\x22" ++ jsonEscape s ++ "\x22"

/-- Comma-join of serialized fields or elements. -/
def joinComma : List String → String
  | [] => ""
  | [x] => x
  | x :: y :: rest => x ++ "," ++ joinComma (y :: rest)

/-- The serialized fields of one `Check` under its struct tags
(main.go 51-64): `name`, `web`, `shell`, `since` carry `omitempty`; `failed`
is always emitted; every other field is tagged `json:"-"`. -/
def marshalFields (c : Check) : List String :=
  (if c.Name ≠ "" then ["\x22name\x22:" ++ jsonStr c.Name] else []) ++
  (if c.Web ≠ "" then ["\x22web\x22:" ++ jsonStr c.Web] else []) ++
  (if c.Shell ≠ "" then ["\x22shell\x22:" ++ jsonStr c.Shell] else []) ++
  ["\x22failed\x22:" ++ (if c.Failed then "true" else "false")] ++
  (if c.Since ≠ "" then ["\x22since\x22:" ++ jsonStr c.Since] else [])

/-- `json.Marshal` of one `Check`. -/
def marshalCheck (c : Check) : String :=
  "\x7b" ++ joinComma (marshalFields c) ++ "\x7d"

/-- `json.Marshal` of the (non-nil) global checks slice. -/
def marshalChecks (cs : List Check) : String :=
  "[" ++ joinComma (cs.map marshalCheck) ++ "]"

/-- The observable part of an HTTP response from `displayJSON`. -/
structure HttpResponse where
  status : Nat
  body : String
  etagHeader : Option String
deriving DecidableEq, Repr

/-- `displayJSON` serving `/status` (main.go 464-466 and 474-500): an
`If-None-Match` header exactly equal to the current token short-circuits to
304 with no body and no `ETag`; anything else gets 200, the serialized checks
and the current token as `ETag`. -/
def displayStatus (ifNoneMatch : String) (cs : List Check) (token : String) :
    HttpResponse :=
  if ifNoneMatch = token then ⟨304, "", none⟩
  else ⟨200, marshalChecks cs, some token⟩

/-- Whether `needle` is a leading segment of `hay`. -/
def leadMatch : List Char → List Char → Bool
  | [], _ => true
  | _ :: _, [] => false
  | a :: as, b :: bs => a = b && leadMatch as bs

/-- Substring search over character lists. -/
def subSearch (needle : List Char) : List Char → Bool
  | [] => leadMatch needle []
  | c :: rest => leadMatch needle (c :: rest) || subSearch needle rest

/-- Whether `hay` contains `needle` as a substring. -/
def strHasSub (hay : String) (needle : String) : Bool :=
  subSearch needle.data hay.data

/-! ### Retry-loop lemmas -/

theorem webAux_success (att : Nat → Option String) :
    ∀ rem i s k, k < rem → (∀ j, j < k → att (i + j) ≠ none) →
      att (i + k) = none → webAux att i s rem = ⟨"", none, i + k + 1, s + k⟩ := by
  intro rem
  induction rem with
  | zero => intro i s k hk; exact absurd hk (Nat.not_lt_zero k)
  | succ rem ih =>
    intro i s k hk hfail hsucc
    cases k with
    | zero =>
      simp only [Nat.add_zero] at hsucc
      simp [webAux, hsucc]
    | succ k' =>
      have h0 : att i ≠ none := by
        have := hfail 0 (Nat.succ_pos k')
        simpa using this
      cases ha : att i with
      | none => exact absurd ha h0
      | some m =>
        have hrem : ¬rem = 0 := by omega
        have hrec := ih (i + 1) (s + 1) k' (by omega)
          (fun j hj => by
            have := hfail (j + 1) (by omega)
            simpa [Nat.add_assoc, Nat.add_comm 1 j] using this)
          (by simpa [Nat.add_assoc, Nat.add_comm 1 k'] using hsucc)
        simp only [webAux, ha, hrem, if_false]
        rw [hrec]
        simp only [CycleOutcome.mk.injEq, true_and]
        omega

theorem webAux_allfail (att : Nat → Option String) :
    ∀ rem i s, 1 ≤ rem → (∀ j, j < rem → att (i + j) ≠ none) →
      webAux att i s rem = ⟨"", att (i + rem - 1), i + rem, s + rem - 1⟩ := by
  intro rem
  induction rem with
  | zero => intro i s h; exact absurd h (by omega)
  | succ rem ih =>
    intro i s _ hfail
    have h0 : att i ≠ none := by
      have := hfail 0 (Nat.succ_pos rem)
      simpa using this
    cases ha : att i with
    | none => exact absurd ha h0
    | some m =>
      by_cases hrem : rem = 0
      · subst hrem
        simp [webAux, ha]
      · have hrec := ih (i + 1) (s + 1) (by omega)
          (fun j hj => by
            have := hfail (j + 1) (by omega)
            simpa [Nat.add_assoc, Nat.add_comm 1 j] using this)
        simp only [webAux, ha, hrem, if_false]
        rw [hrec]
        have h1 : i + 1 + rem - 1 = i + (rem + 1) - 1 := by omega
        rw [h1]
        simp only [CycleOutcome.mk.injEq, eq_self_iff_true, true_and]
        omega

theorem shellAux_success (ex : Nat → String × Option String)
    (mres : String → Option String) :
    ∀ rem i s k, k < rem → (∀ j, j < k → (ex (i + j)).2 ≠ none) →
      (ex (i + k)).2 = none →
      shellAux ex mres i s rem =
        ⟨(ex (i + k)).1, mres (ex (i + k)).1, i + k + 1, s + k⟩ := by
  intro rem
  induction rem with
  | zero => intro i s k hk; exact absurd hk (Nat.not_lt_zero k)
  | succ rem ih =>
    intro i s k hk hfail hsucc
    cases k with
    | zero =>
      simp only [Nat.add_zero] at hsucc ⊢
      rcases hx : ex i with ⟨out, oe⟩
      rw [hx] at hsucc
      simp only at hsucc
      subst hsucc
      simp [shellAux, hx]
    | succ k' =>
      have h0 : (ex i).2 ≠ none := by
        have := hfail 0 (Nat.succ_pos k')
        simpa using this
      rcases hx : ex i with ⟨out, oe⟩
      rw [hx] at h0
      cases oe with
      | none => simp at h0
      | some m =>
        have hrem : ¬rem = 0 := by omega
        have hrec := ih (i + 1) (s + 1) k' (by omega)
          (fun j hj => by
            have := hfail (j + 1) (by omega)
            simpa [Nat.add_assoc, Nat.add_comm 1 j] using this)
          (by simpa [Nat.add_assoc, Nat.add_comm 1 k'] using hsucc)
        simp only [shellAux, hx, hrem, if_false]
        rw [hrec]
        have harith : i + 1 + k' = i + (k' + 1) := by omega
        rw [harith]
        simp only [CycleOutcome.mk.injEq, eq_self_iff_true, true_and]
        omega

theorem shellAux_allfail (ex : Nat → String × Option String)
    (mres : String → Option String) :
    ∀ rem i s, 1 ≤ rem → (∀ j, j < rem → (ex (i + j)).2 ≠ none) →
      shellAux ex mres i s rem =
        ⟨(ex (i + rem - 1)).1, (ex (i + rem - 1)).2, i + rem, s + rem - 1⟩ := by
  intro rem
  induction rem with
  | zero => intro i s h; exact absurd h (by omega)
  | succ rem ih =>
    intro i s _ hfail
    have h0 : (ex i).2 ≠ none := by
      have := hfail 0 (Nat.succ_pos rem)
      simpa using this
    rcases hx : ex i with ⟨out, oe⟩
    rw [hx] at h0
    cases oe with
    | none => simp at h0
    | some m =>
      by_cases hrem : rem = 0
      · subst hrem
        simp [shellAux, hx]
      · have hrec := ih (i + 1) (s + 1) (by omega)
          (fun j hj => by
            have := hfail (j + 1) (by omega)
            simpa [Nat.add_assoc, Nat.add_comm 1 j] using this)
        simp only [shellAux, hx, hrem, if_false]
        rw [hrec]
        have harith : i + 1 + rem - 1 = i + (rem + 1) - 1 := by omega
        rw [harith]
        simp only [CycleOutcome.mk.injEq, eq_self_iff_true, true_and]
        omega

/-! ### State-machine lemmas -/

theorem processOutcome_noop (c : Check) (name : String) (err : Option String)
    (failMsg now tok : String) (h : err.isSome = c.Failed) :
    processOutcome c name err failMsg now tok = ⟨c, tok, 0, []⟩ := by
  cases err with
  | none =>
    have hc : c.Failed = false := by simpa using h.symm
    simp [processOutcome, hc]
  | some e =>
    have hc : c.Failed = true := by simpa using h.symm
    simp [processOutcome, hc]

theorem processOutcome_check_failed (c : Check) (name : String)
    (err : Option String) (failMsg now tok : String) :
    (processOutcome c name err failMsg now tok).check.Failed = err.isSome := by
  cases err <;> by_cases hc : c.Failed <;> simp [processOutcome, hc]

theorem processOutcome_trans (c : Check) (name : String) (err : Option String)
    (failMsg now tok : String) (h : err.isSome ≠ c.Failed) :
    (processOutcome c name err failMsg now tok).tokenWrites = 1 ∧
    (processOutcome c name err failMsg now tok).events ≠ [] ∧
    (processOutcome c name err failMsg now tok).token = etag now := by
  cases err <;> by_cases hc : c.Failed <;> simp_all [processOutcome]

theorem runCycles_noop (name : String) (c : Check) (tok : String)
    (cycles : List (Option String × String × String))
    (h : ∀ x ∈ cycles, x.1.isSome = c.Failed) :
    runCycles name c tok cycles = ⟨c, tok, 0, 0⟩ := by
  induction cycles with
  | nil => rfl
  | cons x rest ih =>
    obtain ⟨e, m, n⟩ := x
    have h0 : e.isSome = c.Failed := by
      simpa using h _ (List.mem_cons_self _ _)
    simp only [runCycles]
    rw [processOutcome_noop c name e m n tok h0]
    simp only
    rw [ih (fun x hx => h x (List.mem_cons_of_mem _ hx))]
    simp

theorem runCycles_const_verdict (name : String) (c : Check) (tok : String)
    (cycles : List (Option String × String × String)) (v : Bool)
    (h : ∀ x ∈ cycles, x.1.isSome = v) :
    (runCycles name c tok cycles).tokenWrites ≤ 1 ∧
    (runCycles name c tok cycles).dispatches ≤ 1 ∧
    (c.Failed = v → runCycles name c tok cycles = ⟨c, tok, 0, 0⟩) ∧
    (c.Failed ≠ v → cycles ≠ [] →
      (runCycles name c tok cycles).tokenWrites = 1 ∧
      (runCycles name c tok cycles).dispatches = 1) := by
  by_cases hc : c.Failed = v
  · have hrun := runCycles_noop name c tok cycles
      (by intro x hx; rw [h x hx, hc])
    rw [hrun]
    exact ⟨by simp, by simp, fun _ => rfl, fun hne _ => absurd hc hne⟩
  · cases cycles with
    | nil =>
      exact ⟨by simp [runCycles], by simp [runCycles], fun _ => rfl,
        fun _ hn => absurd rfl hn⟩
    | cons x rest =>
      obtain ⟨e, m, n⟩ := x
      have h0 : e.isSome = v := by
        simpa using h _ (List.mem_cons_self _ _)
      have hne : e.isSome ≠ c.Failed := by
        rw [h0]; exact fun hh => hc hh.symm
      have heff := processOutcome_trans c name e m n tok hne
      have heffF := processOutcome_check_failed c name e m n tok
      have hrest := runCycles_noop name
        (processOutcome c name e m n tok).check
        (processOutcome c name e m n tok).token rest
        (by intro x hx; rw [h x (List.mem_cons_of_mem _ hx), heffF, h0])
      have hrun : runCycles name c tok ((e, m, n) :: rest) =
          ⟨(processOutcome c name e m n tok).check,
            (processOutcome c name e m n tok).token, 1, 1⟩ := by
        simp only [runCycles]
        rw [hrest]
        rcases heff with ⟨hw, hev, -⟩
        simp [hw, hev]
      rw [hrun]
      exact ⟨le_refl 1, le_refl 1, fun hcv => absurd hcv hc,
        fun _ _ => ⟨rfl, rfl⟩⟩

/-! ### Claim theorems: retry policy and transitions -/

/-- C1: with `tries ≥ 1`, one polling cycle executes the probe — the shell
command for shell checks, the `fetch` call for web checks — up to `tries`
times, stopping at the first successful attempt; it sleeps only between
attempts, so an all-failing cycle observes exactly `tries - 1` delays and
none after the last attempt; the cycle's verdict and diagnostic are those of
the last attempt made (for a shell check the breaking attempt's verdict
includes its `match` evaluation). -/
theorem retry_policy_last_attempt (tries k : Nat) (h1 : 1 ≤ tries)
    (att : Nat → Option String) (ex : Nat → String × Option String)
    (mres : String → Option String) :
    (k < tries → (∀ j, j < k → att j ≠ none) → att k = none →
      webLoop att tries = ⟨"", none, k + 1, k⟩) ∧
    ((∀ j, j < tries → att j ≠ none) →
      webLoop att tries = ⟨"", att (tries - 1), tries, tries - 1⟩) ∧
    (k < tries → (∀ j, j < k → (ex j).2 ≠ none) → (ex k).2 = none →
      shellLoop ex mres tries = ⟨(ex k).1, mres (ex k).1, k + 1, k⟩) ∧
    ((∀ j, j < tries → (ex j).2 ≠ none) →
      shellLoop ex mres tries =
        ⟨(ex (tries - 1)).1, (ex (tries - 1)).2, tries, tries - 1⟩) := by
  refine ⟨fun hk hf hs => ?_, fun hf => ?_, fun hk hf hs => ?_, fun hf => ?_⟩
  · have := webAux_success att tries 0 0 k hk
      (fun j hj => by simpa using hf j hj) (by simpa using hs)
    simpa [webLoop] using this
  · have := webAux_allfail att tries 0 0 h1
      (fun j hj => by simpa using hf j hj)
    simpa [webLoop] using this
  · have := shellAux_success ex mres tries 0 0 k hk
      (fun j hj => by simpa using hf j hj) (by simpa using hs)
    simpa [shellLoop] using this
  · have := shellAux_allfail ex mres tries 0 0 h1
      (fun j hj => by simpa using hf j hj)
    simpa [shellLoop] using this

theorem retry_policy_last_attempt_witness :
    webLoop (fun j => if j < 2 then some "connection refused" else none) 3 =
      ⟨"", none, 3, 2⟩ ∧
    webLoop (fun _ => some "connection refused") 3 =
      ⟨"", some "connection refused", 3, 2⟩ ∧
    shellLoop (fun _ => ("boom\n", some "exit status 1")) (fun _ => none) 3 =
      ⟨"boom\n", some "exit status 1", 3, 2⟩ := by
  refine ⟨?_, ?_, ?_⟩
  · exact (retry_policy_last_attempt 3 2 (by decide)
      (fun j => if j < 2 then some "connection refused" else none)
      (fun _ => ("", none)) (fun _ => none)).1
      (by decide) (by decide) (by decide)
  · exact (retry_policy_last_attempt 3 2 (by decide)
      (fun _ => some "connection refused")
      (fun _ => ("", none)) (fun _ => none)).2.1 (by decide)
  · exact (retry_policy_last_attempt 3 2 (by decide) (fun _ => none)
      (fun _ => ("boom\n", some "exit status 1")) (fun _ => none)).2.2.2
      (by decide)

/-- C2: a polling cycle whose verdict equals the check's current `failed`
flag leaves the check record (so `failed` and `since`), the global token and
the event list untouched; a run of all-successful cycles on a never-failed
check is a complete no-op; a run of equal-verdict cycles refreshes the token
and dispatches notifications at most once, exactly at the first change. -/
theorem transition_idempotence (c : Check) (name : String) (err : Option String)
    (failMsg now tok : String)
    (cycles : List (Option String × String × String)) (v : Bool) :
    (err.isSome = c.Failed →
      processOutcome c name err failMsg now tok = ⟨c, tok, 0, []⟩) ∧
    (c.Failed = false → (∀ x ∈ cycles, x.1 = none) →
      runCycles name c tok cycles = ⟨c, tok, 0, 0⟩) ∧
    ((∀ x ∈ cycles, x.1.isSome = v) →
      (runCycles name c tok cycles).tokenWrites ≤ 1 ∧
      (runCycles name c tok cycles).dispatches ≤ 1 ∧
      (c.Failed ≠ v → cycles ≠ [] →
        (runCycles name c tok cycles).tokenWrites = 1 ∧
        (runCycles name c tok cycles).dispatches = 1)) := by
  refine ⟨fun h => processOutcome_noop c name err failMsg now tok h,
    fun hf hall => ?_, fun h => ?_⟩
  · exact runCycles_noop name c tok cycles
      (by intro x hx; rw [hall x hx, hf]; rfl)
  · have := runCycles_const_verdict name c tok cycles v h
    exact ⟨this.1, this.2.1, this.2.2.2⟩

theorem transition_idempotence_witness :
    runCycles "api"
      { Name := "", Web := "", Shell := "true", Match := "", Return := 0,
        Notify := "", Alert := "", Tries := 1, Repeat := 30, Sleep := 0,
        Failed := false, Since := "" } "W0"
      [(none, "", "t1"), (none, "", "t2"), (none, "", "t3")] =
      ⟨{ Name := "", Web := "", Shell := "true", Match := "", Return := 0,
         Notify := "", Alert := "", Tries := 1, Repeat := 30, Sleep := 0,
         Failed := false, Since := "" }, "W0", 0, 0⟩ ∧
    (runCycles "api"
      { Name := "", Web := "", Shell := "false", Match := "", Return := 0,
        Notify := "", Alert := "", Tries := 1, Repeat := 30, Sleep := 0,
        Failed := false, Since := "" } "W0"
      [(some "exit status 1", "exit status 1", "t1"),
       (some "exit status 1", "exit status 1", "t2")]).tokenWrites = 1 := by
  constructor
  · exact (transition_idempotence
      { Name := "", Web := "", Shell := "true", Match := "", Return := 0,
        Notify := "", Alert := "", Tries := 1, Repeat := 30, Sleep := 0,
        Failed := false, Since := "" } "api" none "" "" "W0"
      [(none, "", "t1"), (none, "", "t2"), (none, "", "t3")] false).2.1
      rfl (by decide)
  · exact (((transition_idempotence
      { Name := "", Web := "", Shell := "false", Match := "", Return := 0,
        Notify := "", Alert := "", Tries := 1, Repeat := 30, Sleep := 0,
        Failed := false, Since := "" } "api" none "" "" "W0"
      [(some "exit status 1", "exit status 1", "t1"),
       (some "exit status 1", "exit status 1", "t2")] true).2.2
      (by decide)).2.2 (by decide) (by decide)).1

/-! ### Validation, conditional GET and serialization -/

theorem workerSpawn_invalid (c : Check)
    (h : (c.Shell = "" ∧ c.Web = "") ∨ (c.Shell ≠ "" ∧ c.Web ≠ "")) :
    workerSpawn c = WorkerAction.disabled { c with Failed := true } := by
  rcases h with ⟨h1, h2⟩ | ⟨h1, h2⟩
  · simp [workerSpawn, h1, h2]
  · simp [workerSpawn, h1, h2]

/-- C3: a check definition with both of `web`/`shell` set, or with neither,
is marked `Failed = true` once at spawn and its worker returns before the
polling loop, so it executes zero probe cycles over any window; each worker's
action depends only on its own entry, so the other checks are unaffected. -/
theorem invalid_check_disabled (c : Check)
    (h : (c.Shell = "" ∧ c.Web = "") ∨ (c.Shell ≠ "" ∧ c.Web ≠ "")) :
    workerSpawn c = WorkerAction.disabled { c with Failed := true } ∧
    (∀ n, pollCycles (workerSpawn c) n = 0) ∧
    (∀ (cs : List Check) (i : Nat),
      (spawnAll cs)[i]? = (cs[i]?).map workerSpawn) := by
  have hd := workerSpawn_invalid c h
  refine ⟨hd, fun n => by rw [hd]; rfl, fun cs i => ?_⟩
  simp [spawnAll]

theorem invalid_check_disabled_witness :
    workerSpawn
      { Name := "bad", Web := "http://x", Shell := "true", Match := "",
        Return := 0, Notify := "", Alert := "", Tries := 0, Repeat := 0,
        Sleep := 0, Failed := false, Since := "" } =
      WorkerAction.disabled
        { Name := "bad", Web := "http://x", Shell := "true", Match := "",
          Return := 0, Notify := "", Alert := "", Tries := 0, Repeat := 0,
          Sleep := 0, Failed := true, Since := "" } ∧
    pollCycles (workerSpawn
      { Name := "", Web := "", Shell := "", Match := "", Return := 0,
        Notify := "", Alert := "", Tries := 0, Repeat := 0, Sleep := 0,
        Failed := false, Since := "" }) 1000 = 0 := by
  constructor
  · exact (invalid_check_disabled
      { Name := "bad", Web := "http://x", Shell := "true", Match := "",
        Return := 0, Notify := "", Alert := "", Tries := 0, Repeat := 0,
        Sleep := 0, Failed := false, Since := "" }
      (Or.inr ⟨by decide, by decide⟩)).1
  · exact (invalid_check_disabled
      { Name := "", Web := "", Shell := "", Match := "", Return := 0,
        Notify := "", Alert := "", Tries := 0, Repeat := 0, Sleep := 0,
        Failed := false, Since := "" }
      (Or.inl ⟨rfl, rfl⟩)).2.1 1000

/-- C4: `/status` answers 304 with an empty body exactly when the request's
`If-None-Match` header is string-equal to the current change token, and
otherwise answers 200 with the serialized checks array and an `ETag` equal to
the current token. -/
theorem conditional_get (inm tok : String) (cs : List Check) :
    ((displayStatus inm cs tok).status = 304 ↔ inm = tok) ∧
    (inm = tok → displayStatus inm cs tok = ⟨304, "", none⟩) ∧
    (inm ≠ tok → displayStatus inm cs tok =
      ⟨200, marshalChecks cs, some tok⟩) := by
  by_cases h : inm = tok <;> simp [displayStatus, h]

theorem conditional_get_witness :
    displayStatus "W/\x221\x22" [] "W/\x221\x22" = ⟨304, "", none⟩ ∧
    displayStatus "W/\x221\x22" [] "W/\x222\x22" =
      ⟨200, marshalChecks [], some "W/\x222\x22"⟩ := by
  constructor
  · exact (conditional_get "W/\x221\x22" "W/\x221\x22" []).2.1 rfl
  · exact (conditional_get "W/\x221\x22" "W/\x222\x22" []).2.2 (by decide)

/-- A configuration entry that defines only a shell command, as loaded from
YAML (all other fields at their zero values). -/
def shellOnly (sh : String) : Check :=
  { Name := "", Web := "", Shell := sh, Match := "", Return := 0, Notify := "",
    Alert := "", Tries := 0, Repeat := 0, Sleep := 0, Failed := false,
    Since := "" }

/-- C5 counterexample: for the `echo ok` shell check with no explicit name,
after one successful polling cycle the `/status` body is
`[{"shell":"echo ok","failed":false}]` — the `shell` field is serialized and
the `name` field is omitted (the name default applies only to the worker's
display name, never written back to the struct) — which differs from the
claimed body `[{"name":"echo ok","failed":false}]`. -/
theorem status_body_counterexample :
    displayStatus "stale"
      [(shellStep (fun _ => RegexResult.compiled (fun _ => true))
          (fun _ => ("ok\n", none))
          { shellOnly "echo ok" with Tries := 1, Repeat := 30 }
          "echo ok" "t1" "W0").check] "W0" =
      ⟨200, "[\x7b\x22shell\x22:\x22echo ok\x22,\x22failed\x22:false\x7d]",
        some "W0"⟩ ∧
    "[\x7b\x22shell\x22:\x22echo ok\x22,\x22failed\x22:false\x7d]" ≠
      "[\x7b\x22name\x22:\x22echo ok\x22,\x22failed\x22:false\x7d]" := by
  constructor
  · decide
  · decide

/-- C5 (amended): for a shell-only check with no explicit name that always
succeeds, the worker's display name defaults to the probe target, one
successful cycle leaves the fresh check record unchanged, and the serialized
body carries exactly the `shell` and `failed` fields — no `since` and no
`name` entry, since the unset `Name` stays empty in the struct. -/
theorem status_body_shell_amended (sh now tok : String)
    (compile : String → RegexResult) (hsh : sh ≠ "") :
    workerSpawn (shellOnly sh) =
      WorkerAction.pollShell { shellOnly sh with Tries := 1, Repeat := 30 } sh ∧
    (shellStep compile (fun _ => ("ok\n", none))
        { shellOnly sh with Tries := 1, Repeat := 30 } sh now tok).check =
      { shellOnly sh with Tries := 1, Repeat := 30 } ∧
    marshalFields { shellOnly sh with Tries := 1, Repeat := 30 } =
      ["\x22shell\x22:" ++ jsonStr sh, "\x22failed\x22:false"] := by
  refine ⟨?_, ?_, ?_⟩
  · simp [workerSpawn, shellOnly, hsh, applyShellDefaults, effRepeat, effTries]
  · rfl
  · simp [marshalFields, shellOnly, hsh]

theorem status_body_shell_amended_witness :
    workerSpawn (shellOnly "echo ok") =
      WorkerAction.pollShell { shellOnly "echo ok" with Tries := 1, Repeat := 30 }
        "echo ok" ∧
    marshalFields { shellOnly "echo ok" with Tries := 1, Repeat := 30 } =
      ["\x22shell\x22:" ++ jsonStr "echo ok", "\x22failed\x22:false"] := by
  constructor
  · exact (status_body_shell_amended "echo ok" "t1" "W0"
      (fun _ => RegexResult.compiled (fun _ => true)) (by decide)).1
  · exact (status_body_shell_amended "echo ok" "t1" "W0"
      (fun _ => RegexResult.compiled (fun _ => true)) (by decide)).2.2

/-! ### Defaults, redirects, regex errors and alerts -/

/-- A check configured with `tries: -1`, used to refute the universal
lower bound on the effective tries. -/
def triesNegCheck : Check :=
  { Name := "", Web := "http://x", Shell := "", Match := "", Return := 0,
    Notify := "", Alert := "", Tries := -1, Repeat := 0, Sleep := 0,
    Failed := false, Since := "" }

/-- C6 counterexample: the worker only replaces a zero `Tries` by 1
(main.go 188-190), so a configured `tries: -1` stays -1 — the effective
tries is not at least 1 — and the retry loop then makes zero attempts. -/
theorem effective_tries_counterexample :
    effTries triesNegCheck = -1 ∧
    ¬(1 ≤ effTries triesNegCheck) ∧
    webLoop (fun _ => some "e") (effTries triesNegCheck).toNat =
      ⟨"", none, 0, 0⟩ := by
  refine ⟨by decide, by decide, by decide⟩

/-- C6 (amended): the documented defaults hold — an unset (zero) `repeat`
becomes 30 seconds, an unset `tries` becomes 1, an unset `return` becomes
200 on the web branch — and the effective tries is at least 1 whenever the
configured value is non-negative (a negative configured value is left
unchanged); the worker applies exactly these effective values when entering
its polling loop. -/
theorem effective_defaults (c : Check) :
    (c.Repeat = 0 → effRepeat c = 30) ∧
    (c.Tries = 0 → effTries c = 1) ∧
    (c.Return = 0 → effReturn c = 200) ∧
    (0 ≤ c.Tries → 1 ≤ effTries c) ∧
    (c.Web ≠ "" → c.Shell = "" →
      workerSpawn c = WorkerAction.pollWeb (applyWebDefaults c)
        (if c.Name ≠ "" then c.Name else c.Web)) ∧
    (c.Shell ≠ "" → c.Web = "" →
      workerSpawn c = WorkerAction.pollShell (applyShellDefaults c)
        (if c.Name ≠ "" then c.Name else c.Shell)) := by
  refine ⟨fun h => by simp [effRepeat, h], fun h => by simp [effTries, h],
    fun h => by simp [effReturn, h], fun h => ?_, fun hw hs => ?_,
    fun hs hw => ?_⟩
  · by_cases h0 : c.Tries = 0
    · simp [effTries, h0]
    · simp only [effTries, h0, if_false]
      omega
  · simp [workerSpawn, hw, hs]
  · simp [workerSpawn, hw, hs]

theorem effective_defaults_witness :
    effRepeat (shellOnly "true") = 30 ∧
    effTries (shellOnly "true") = 1 ∧
    effReturn (shellOnly "true") = 200 ∧
    1 ≤ effTries { shellOnly "true" with Tries := 5 } := by
  refine ⟨(effective_defaults (shellOnly "true")).1 rfl,
    (effective_defaults (shellOnly "true")).2.1 rfl,
    (effective_defaults (shellOnly "true")).2.2.1 rfl,
    (effective_defaults { shellOnly "true" with Tries := 5 }).2.2.2.1
      (by decide)⟩

theorem followAux_ok :
    ∀ (hops via : List Req), via.length + hops.length ≤ 10 →
      followAux via hops = none := by
  intro hops
  induction hops with
  | nil => intro via _; rfl
  | cons r rest ih =>
    intro via hlen
    have hv : ¬10 ≤ via.length := by
      simp only [List.length_cons] at hlen
      omega
    simp only [followAux, redirect, hv, if_false]
    apply ih
    simp only [List.length_append, List.length_cons, List.length_nil] at *
    omega

theorem followAux_limit :
    ∀ (hops via : List Req), via.length ≤ 10 →
      11 ≤ via.length + hops.length →
      followAux via hops = some "stopped after 10 redirects" := by
  intro hops
  induction hops with
  | nil =>
    intro via h1 h2
    simp only [List.length_nil, Nat.add_zero] at h2
    omega
  | cons r rest ih =>
    intro via h1 h2
    by_cases hv : 10 ≤ via.length
    · simp [followAux, redirect, hv]
    · simp only [followAux, redirect, hv, if_false]
      apply ih
      · simp only [List.length_append, List.length_cons, List.length_nil]
        omega
      · simp only [List.length_append, List.length_cons, List.length_nil] at *
        omega

/-- C7: a chain of up to 10 redirect hops is followed in full; a chain that
would require an 11th hop fails — the loop terminates with the
"stopped after 10 redirects" error, whose text mentions the redirect
limit — because the `redirect` policy refuses once 10 requests are in the
chain (and otherwise allows the hop with the fixed "jsonmon" user agent
re-applied). -/
theorem redirect_limit (hops : List Req) (req : Req) (via : List Req) :
    (hops.length ≤ 10 → followChain hops = none) ∧
    (11 ≤ hops.length → followChain hops = some "stopped after 10 redirects") ∧
    (10 ≤ via.length →
      (redirect req via).1 = some "stopped after 10 redirects") ∧
    (via.length < 10 →
      redirect req via = (none, { req with userAgent := "jsonmon" })) ∧
    strHasSub "stopped after 10 redirects" "10 redirects" = true := by
  refine ⟨fun h => followAux_ok hops [] (by simpa using h),
    fun h => followAux_limit hops [] (by simp) (by simpa using h),
    fun h => by simp [redirect, h],
    fun h => by simp [redirect, Nat.not_le.mpr h],
    by decide⟩

theorem redirect_limit_witness :
    followChain (List.replicate 10 ⟨"http://x", ""⟩) = none ∧
    followChain (List.replicate 11 ⟨"http://x", ""⟩) =
      some "stopped after 10 redirects" := by
  constructor
  · exact (redirect_limit (List.replicate 10 ⟨"http://x", ""⟩) ⟨"", ""⟩ []).1
      (by decide)
  · exact (redirect_limit (List.replicate 11 ⟨"http://x", ""⟩)
      ⟨"", ""⟩ []).2.1 (by decide)

theorem leadMatch_refl (l : List Char) : leadMatch l l = true := by
  induction l with
  | nil => rfl
  | cons a as ih => simp [leadMatch, ih]

theorem subSearch_self (n : List Char) : subSearch n n = true := by
  cases n with
  | nil => rfl
  | cons c rest => simp [subSearch, leadMatch_refl]

theorem subSearch_tail (n : List Char) :
    ∀ pre, subSearch n (pre ++ n) = true := by
  intro pre
  induction pre with
  | nil => simpa using subSearch_self n
  | cons p ps ih => simp [subSearch, ih]

theorem string_data_append (a b : String) :
    (a ++ b).data = a.data ++ b.data := rfl

theorem strHasSub_append_right (a b : String) : strHasSub (a ++ b) b = true := by
  unfold strHasSub
  rw [string_data_append]
  exact subSearch_tail b.data a.data

/-- C8: when the configured `match` regular expression fails to compile, the
probe attempt is a failure whose error is the compilation error text — for a
shell attempt the loop breaks with that error after a successful command, and
the cycle's diagnostic `out ++ err` carries the text; for a web attempt
`fetch` returns it even when the status code matched.  The error is an
ordinary verdict, handled by the same total result-processing as any probe
failure. -/
theorem regex_compile_failure (compile : String → RegexResult)
    (pat m out body url ex0 : String) (code : Nat)
    (hp : pat ≠ "") (hc : compile pat = RegexResult.compileError m) :
    matchOutcome compile pat out = some m ∧
    shellLoop (fun _ => (ex0, none)) (matchOutcome compile pat) 1 =
      ⟨ex0, some m, 1, 0⟩ ∧
    fetch compile (FetchEnv.response code body) url pat code = some m ∧
    strHasSub (ex0 ++ m) m = true := by
  have hm : ∀ s, matchOutcome compile pat s = some m := by
    intro s
    simp [matchOutcome, hp, hc]
  refine ⟨hm out, ?_, ?_, strHasSub_append_right ex0 m⟩
  · simp [shellLoop, shellAux, hm]
  · simp [fetch, hm]

theorem regex_compile_failure_witness :
    matchOutcome (fun _ => RegexResult.compileError "error parsing regexp")
      "(" "ok" = some "error parsing regexp" ∧
    fetch (fun _ => RegexResult.compileError "error parsing regexp")
      (FetchEnv.response 200 "ok") "http://x" "(" 200 =
      some "error parsing regexp" := by
  constructor
  · exact (regex_compile_failure
      (fun _ => RegexResult.compileError "error parsing regexp")
      "(" "error parsing regexp" "ok" "ok" "http://x" "" 200
      (by decide) rfl).1
  · exact (regex_compile_failure
      (fun _ => RegexResult.compileError "error parsing regexp")
      "(" "error parsing regexp" "ok" "ok" "http://x" "" 200
      (by decide) rfl).2.2.1

/-- C9: on every transition with `alertCommand` set, the alert command is
invoked with the new failed state as boolean text, then the display name,
then — only on an UP-to-DOWN transition — the diagnostic; the DOWN-to-UP
invocation has no diagnostic argument; and the `alert` call only logs a
failing command, returning the check untouched, so an alert failure never
alters check state. -/
theorem alert_invocation (c : Check) (name e failMsg now tok : String)
    (hA : c.Alert ≠ "") :
    (c.Failed = false →
      Event.alertCall c.Alert [formatBool true, name, failMsg] ∈
        (processOutcome c name (some e) failMsg now tok).events) ∧
    (c.Failed = true →
      Event.alertCall c.Alert [formatBool false, name] ∈
        (processOutcome c name none failMsg now tok).events) ∧
    (∀ b nm msg, alertArgs b nm (some msg) = [formatBool b, nm, msg]) ∧
    (∀ b nm, alertArgs b nm none = [formatBool b, nm]) ∧
    (∀ out execErr, (alertRun c out execErr).1 = c) ∧
    (∀ out errText, alertRun c out (some errText) =
      (c, ["<3>" ++ c.Alert ++ " failed\n" ++ out ++ errText])) := by
  refine ⟨fun hf => ?_, fun hf => ?_, fun _ _ _ => rfl, fun _ _ => rfl,
    fun _ _ => rfl, fun _ _ => rfl⟩
  · by_cases hN : c.Notify = "" <;>
      simp [processOutcome, hf, hA, hN, alertArgs]
  · by_cases hN : c.Notify = "" <;>
      simp [processOutcome, hf, hA, hN, alertArgs]

theorem alert_invocation_witness :
    Event.alertCall "/bin/alert" [formatBool true, "api", "exit status 1"] ∈
      (processOutcome { shellOnly "false" with Alert := "/bin/alert" }
        "api" (some "exit status 1") "exit status 1" "t1" "W0").events ∧
    alertRun { shellOnly "false" with Alert := "/bin/alert" } "out"
      (some "exit status 127") =
      ({ shellOnly "false" with Alert := "/bin/alert" },
        ["<3>/bin/alert failed\nout" ++ "exit status 127"]) := by
  constructor
  · exact (alert_invocation { shellOnly "false" with Alert := "/bin/alert" }
      "api" "exit status 1" "exit status 1" "t1" "W0" (by decide)).1 rfl
  · exact (alert_invocation { shellOnly "false" with Alert := "/bin/alert" }
      "api" "e" "m" "t1" "W0" (by decide)).2.2.2.2.2 "out" "exit status 127"

/-- C10: disabling an invalid check at spawn writes only the `Failed` flag:
`Since` stays empty, the global token is untouched, so a `/status` client
holding the startup token keeps getting 304 with an empty body, even though
a fresh serialization would now report `"failed":true` for that check. -/
theorem invalid_spawn_frame (c : Check) (tok : String) (cs1 cs2 : List Check)
    (h : (c.Shell = "" ∧ c.Web = "") ∨ (c.Shell ≠ "" ∧ c.Web ≠ ""))
    (hs : c.Since = "") :
    (spawnEffect c tok).2 = tok ∧
    (spawnEffect c tok).1 = { c with Failed := true } ∧
    (spawnEffect c tok).1.Since = "" ∧
    displayStatus tok (cs1 ++ (spawnEffect c tok).1 :: cs2) tok =
      ⟨304, "", none⟩ ∧
    "\x22failed\x22:true" ∈ marshalFields (spawnEffect c tok).1 := by
  have hd : spawnEffect c tok = ({ c with Failed := true }, tok) := by
    simp [spawnEffect, workerSpawn_invalid c h]
  rw [hd]
  have hfld : ("\x22failed\x22:true" : String) = "\x22failed\x22:" ++ "true" :=
    rfl
  refine ⟨rfl, rfl, hs, by simp [displayStatus], ?_⟩
  rw [hfld]
  simp [marshalFields]

theorem invalid_spawn_frame_witness :
    (spawnEffect (shellOnly "") "W0").2 = "W0" ∧
    (spawnEffect (shellOnly "") "W0").1.Since = "" ∧
    displayStatus "W0" [(spawnEffect (shellOnly "") "W0").1] "W0" =
      ⟨304, "", none⟩ ∧
    "\x22failed\x22:true" ∈ marshalFields (spawnEffect (shellOnly "") "W0").1 := by
  have h := invalid_spawn_frame (shellOnly "") "W0" [] []
    (Or.inl ⟨rfl, rfl⟩) rfl
  exact ⟨h.1, h.2.2.1, h.2.2.2.1, h.2.2.2.2⟩

end Jsonmon
